import Mathlib

/-!
Verification of the mnemonic-envelope codec of `src/wallet.ts`
(`encryptEvmMnemonic` / `decryptEvmMnemonic`) and of the entropy
validation of `generateEvmSeed`.

The envelope logic — key-derivation call, envelope assembly, JSON field
layout, field validation on decryption, tag comparison — is embedded
directly from the TypeScript source.  The external cryptographic
primitives called by that code (`crypto.scryptSync`, AES-256-GCM via
`crypto.createCipheriv` / `createDecipheriv`, and Node's UTF-8 codec)
are modelled as parameters of the development (a `CryptoPrims` record);
theorems assume only their documented contracts (GCM's CTR layer is a
length-preserving involution in the data argument, scrypt returns the
requested number of bytes, UTF-8 decoding inverts encoding).  The
idealised authentication property of the GCM tag (distinct keys or
distinct data give distinct tags) appears as an explicit hypothesis on
the theorems that need it.  Randomness (`crypto.randomBytes`) is
modelled by passing the drawn salt and IV as explicit arguments.
-/

namespace Web3Tools

/-- A byte list: every element is below 256 (the contents of a Node `Buffer`). -/
def Bytes (l : List Nat) : Prop := ∀ b ∈ l, b < 256

instance (l : List Nat) : Decidable (Bytes l) := by
  unfold Bytes
  infer_instance

/-- The lowercase hex digit for a value below 16, as produced by
`Buffer.prototype.toString("hex")`. -/
def hexDigit (n : Nat) : Char :=
  if n < 10 then Char.ofNat (48 + n) else Char.ofNat (87 + n)

/-- Hex digits of a byte list, two lowercase digits per byte
(`Buffer.prototype.toString("hex")`). -/
def toHexDigits : List Nat → List Char
  | [] => []
  | b :: t => hexDigit (b / 16) :: hexDigit (b % 16) :: toHexDigits t

/-- Embedding of `buf.toString("hex")`: lowercase hex encoding of a byte list. -/
def toHex (l : List Nat) : String := String.mk (toHexDigits l)

/-- Value of a single hex digit character, `none` for a non-hex character. -/
def hexDigitVal (c : Char) : Option Nat :=
  if 48 ≤ c.toNat ∧ c.toNat ≤ 57 then some (c.toNat - 48)
  else if 97 ≤ c.toNat ∧ c.toNat ≤ 102 then some (c.toNat - 87)
  else if 65 ≤ c.toNat ∧ c.toNat ≤ 70 then some (c.toNat - 55)
  else none

/-- Embedding of `Buffer.from(s, "hex")` on the character list: decode hex pairs from the
front, stopping (and truncating) at the first pair that is not two hex
digits — Node's documented truncating behaviour. -/
def bufferFromHexAux : List Char → List Nat
  | c1 :: c2 :: rest =>
    match hexDigitVal c1, hexDigitVal c2 with
    | some hi, some lo => (16 * hi + lo) :: bufferFromHexAux rest
    | _, _ => []
  | _ => []

/-- Embedding of `Buffer.from(s, "hex")`. -/
def bufferFromHex (s : String) : List Nat := bufferFromHexAux s.data

/-- A character of the lowercase hex alphabet `0-9a-f`. -/
def isLowerHexChar (c : Char) : Prop :=
  (48 ≤ c.toNat ∧ c.toNat ≤ 57) ∨ (97 ≤ c.toNat ∧ c.toNat ≤ 102)

instance (c : Char) : Decidable (isLowerHexChar c) := by
  unfold isLowerHexChar
  infer_instance

/-- Every character of a string is a lowercase hex digit. -/
def LowerHexStr (s : String) : Prop := ∀ c ∈ s.data, isLowerHexChar c

/-- The external cryptographic primitives used by the codec, as abstract
parameters: scrypt key derivation; the CTR (keystream-XOR) layer of
AES-256-GCM, which is the same function for encryption and decryption;
the GCM authentication tag over (key, iv, ciphertext); and the UTF-8
codec of Node buffers. -/
structure CryptoPrims where
  scryptFn : String → List Nat → Nat → Nat → Nat → Nat → List Nat
  ctrFn : List Nat → List Nat → List Nat → List Nat
  tagFn : List Nat → List Nat → List Nat → List Nat
  utf8Enc : String → List Nat
  utf8Dec : List Nat → String

/-- The documented contracts of the external primitives that the codec
relies on: the GCM data layer is a length-preserving involution producing
bytes, the tag and the scrypt key are bytes, scrypt returns the requested
key length, and UTF-8 decoding inverts UTF-8 encoding. -/
structure GoodPrims (C : CryptoPrims) : Prop where
  ctr_invol : ∀ k i x, C.ctrFn k i (C.ctrFn k i x) = x
  ctr_len : ∀ k i x, (C.ctrFn k i x).length = x.length
  ctr_bytes : ∀ k i x, Bytes x → Bytes (C.ctrFn k i x)
  tag_bytes : ∀ k i c, Bytes k → Bytes i → Bytes c → Bytes (C.tagFn k i c)
  scrypt_bytes : ∀ pw s n a b c, Bytes (C.scryptFn pw s n a b c)
  scrypt_len : ∀ pw s n a b c, (C.scryptFn pw s n a b c).length = n
  utf8_enc_bytes : ∀ s, Bytes (C.utf8Enc s)
  utf8_roundtrip : ∀ s, C.utf8Dec (C.utf8Enc s) = s

/-- The `kdfparams` member of the envelope payload built by
`encryptEvmMnemonic`: `{ ...kdfParams, salt: salt.toString("hex") }`. -/
structure Kdfparams where
  N : Nat
  r : Nat
  p : Nat
  salt : String
  deriving DecidableEq

/-- The envelope payload built by `encryptEvmMnemonic` before
`JSON.stringify`. -/
structure Envelope where
  v : Nat
  alg : String
  kdf : String
  kdfparams : Kdfparams
  iv : String
  tag : String
  ct : String
  deriving DecidableEq

/-- The `kdfparams` member of a parsed envelope as seen by
`decryptEvmMnemonic` after `JSON.parse`: any member may be absent
(`undefined` in JavaScript), hence the `Option` fields. -/
structure KdfparamsJson where
  N : Option Nat
  r : Option Nat
  p : Option Nat
  salt : Option String
  deriving DecidableEq

/-- A parsed envelope as seen by `decryptEvmMnemonic` after `JSON.parse`:
any member may be absent. -/
structure EnvelopeJson where
  v : Option Nat
  alg : Option String
  kdf : Option String
  kdfparams : Option KdfparamsJson
  iv : Option String
  tag : Option String
  ct : Option String
  deriving DecidableEq

/-- What `JSON.parse` returns on the `JSON.stringify` output of a payload:
every field present. -/
def toRaw (e : Envelope) : EnvelopeJson :=
  { v := some e.v
    alg := some e.alg
    kdf := some e.kdf
    kdfparams := some
      { N := some e.kdfparams.N
        r := some e.kdfparams.r
        p := some e.kdfparams.p
        salt := some e.kdfparams.salt }
    iv := some e.iv
    tag := some e.tag
    ct := some e.ct }

/-- Embedding of `JSON.stringify(payload)` with the insertion order of
`encryptEvmMnemonic`: `v`, `alg`, `kdf`, `kdfparams` (`N`, `r`, `p`,
`salt`), `iv`, `tag`, `ct`. -/
def serializeEnvelope (e : Envelope) : String :=
  "\x7b\"v\":" ++ toString e.v ++ ",\"alg\":\"" ++ e.alg ++ "\",\"kdf\":\"" ++ e.kdf
    ++ "\",\"kdfparams\":\x7b\"N\":" ++ toString e.kdfparams.N
    ++ ",\"r\":" ++ toString e.kdfparams.r
    ++ ",\"p\":" ++ toString e.kdfparams.p
    ++ ",\"salt\":\"" ++ e.kdfparams.salt
    ++ "\"\x7d,\"iv\":\"" ++ e.iv ++ "\",\"tag\":\"" ++ e.tag ++ "\",\"ct\":\"" ++ e.ct
    ++ "\"\x7d"

/-- Embedding of `encryptEvmMnemonic` of `src/wallet.ts`, with the randomness drawn by
`crypto.randomBytes(32)` / `crypto.randomBytes(16)` passed in as the
`salt` and `iv` arguments: derive a 32-byte key by scrypt with the fixed
parameters N = 16384, r = 8, p = 1, encrypt the UTF-8 bytes of the
mnemonic with AES-256-GCM, capture the tag, and assemble the payload. -/
def encryptEvmMnemonic (C : CryptoPrims) (salt iv : List Nat)
    (mnemonic password : String) : Envelope :=
  let key := C.scryptFn password salt 32 16384 8 1
  let ciphertext := C.ctrFn key iv (C.utf8Enc mnemonic)
  let tag := C.tagFn key iv ciphertext
  { v := 1
    alg := "aes-256-gcm"
    kdf := "scrypt"
    kdfparams := { N := 16384, r := 8, p := 1, salt := toHex salt }
    iv := toHex iv
    tag := toHex tag
    ct := toHex ciphertext }

/-- The errors `decryptEvmMnemonic` can raise: the explicit
"Unsupported mnemonic envelope" error; a JavaScript `TypeError` from
reading a member of `undefined` or passing `undefined` to `Buffer.from`;
and the GCM authentication failure raised by `decipher.final()`. -/
inductive DecryptError where
  | unsupportedEnvelope
  | typeError
  | authFailure
  deriving DecidableEq

instance {e a : Type} [DecidableEq e] [DecidableEq a] : DecidableEq (Except e a) := fun x y =>
  match x, y with
  | .ok u, .ok v =>
    if h : u = v then isTrue (by rw [h]) else isFalse (by intro hc; cases hc; exact h rfl)
  | .error u, .error v =>
    if h : u = v then isTrue (by rw [h]) else isFalse (by intro hc; cases hc; exact h rfl)
  | .ok _, .error _ => isFalse (by intro hc; cases hc)
  | .error _, .ok _ => isFalse (by intro hc; cases hc)

/-- Embedding of `decryptEvmMnemonic` of `src/wallet.ts`, applied to the already-parsed
envelope (`JSON.parse` output).  Mirrors the source order: the `alg`/`kdf`
guard; hex-decoding of `kdfparams.salt`, `iv`, `tag` (a `TypeError` when
the member is absent); scrypt with the parameters recorded in the
envelope (Node defaults N = 16384, r = 8, p = 1 when a member is absent);
hex-decoding of `ct`; then GCM decryption, which fails iff the recomputed
tag differs from the provided one. -/
def decryptEvmMnemonic (C : CryptoPrims) (data : EnvelopeJson)
    (password : String) : Except DecryptError String :=
  if data.alg ≠ some "aes-256-gcm" ∨ data.kdf ≠ some "scrypt" then
    .error .unsupportedEnvelope
  else
    match data.kdfparams with
    | none => .error .typeError
    | some kp =>
      match kp.salt with
      | none => .error .typeError
      | some saltHex =>
        match data.iv with
        | none => .error .typeError
        | some ivHex =>
          match data.tag with
          | none => .error .typeError
          | some tagHex =>
            let salt := bufferFromHex saltHex
            let iv := bufferFromHex ivHex
            let tag := bufferFromHex tagHex
            let key := C.scryptFn password salt 32
              (kp.N.getD 16384) (kp.r.getD 8) (kp.p.getD 1)
            match data.ct with
            | none => .error .typeError
            | some ctHex =>
              let ct := bufferFromHex ctHex
              if C.tagFn key iv ct = tag then
                .ok (C.utf8Dec (C.ctrFn key iv ct))
              else
                .error .authFailure

/-- Embedding of `generateEvmSeed` of `src/wallet.ts`, with `crypto.randomBytes` and
`ethers.utils.entropyToMnemonic` passed in as parameters: validate the
entropy size, then draw that many random bytes and convert them to a
mnemonic. -/
def generateEvmSeed (randomBytes : Nat → List Nat)
    (entropyToMnemonic : List Nat → String) (entropyBytes : Nat) :
    Except String String :=
  if entropyBytes < 16 ∨ 32 < entropyBytes ∨ entropyBytes % 4 ≠ 0 then
    .error "entropyBytes must be 16, 20, 24, 28, or 32"
  else
    .ok (entropyToMnemonic (randomBytes entropyBytes))

/-- Fixed-width (3 bytes per character) code-point encoding, used as a
concrete stand-in for the UTF-8 encoder when instantiating the abstract
primitives on concrete inputs. -/
def encChar (c : Char) : List Nat :=
  [c.toNat % 256, c.toNat / 256 % 256, c.toNat / 65536]

/-- Fixed-width encoding of a character list. -/
def encChars : List Char → List Nat
  | [] => []
  | c :: cs => encChar c ++ encChars cs

/-- Decoder of the fixed-width encoding. -/
def decChars : List Nat → List Char
  | b0 :: b1 :: b2 :: rest => Char.ofNat (b0 + 256 * b1 + 65536 * b2) :: decChars rest
  | _ => []

/-- Stand-in string-to-bytes encoder. -/
def toyUtf8Enc (s : String) : List Nat := encChars s.data

/-- Stand-in bytes-to-string decoder. -/
def toyUtf8Dec (l : List Nat) : String := String.mk (decChars l)

/-- A concrete instantiation of the abstract primitives: the key depends
on the password length, the data layer of the cipher is the identity (an
involution), and the tag is a constant 16-byte value. -/
def toyPrimsA : CryptoPrims :=
  { scryptFn := fun pw _ n _ _ _ => List.replicate n (pw.length % 256)
    ctrFn := fun _ _ x => x
    tagFn := fun _ _ _ => List.replicate 16 0
    utf8Enc := toyUtf8Enc
    utf8Dec := toyUtf8Dec }

/-- A concrete instantiation whose tag is the key itself, hence injective
in the key. -/
def toyPrimsB : CryptoPrims :=
  { scryptFn := fun pw _ n _ _ _ => List.replicate n (pw.length % 256)
    ctrFn := fun _ _ x => x
    tagFn := fun k _ _ => k
    utf8Enc := toyUtf8Enc
    utf8Dec := toyUtf8Dec }

/-- A concrete instantiation whose tag is the IV followed by the
ciphertext, hence injective in the (fixed-length IV, ciphertext) pair. -/
def toyPrimsC : CryptoPrims :=
  { scryptFn := fun pw _ n _ _ _ => List.replicate n (pw.length % 256)
    ctrFn := fun _ _ x => x
    tagFn := fun _ i c => i ++ c
    utf8Enc := toyUtf8Enc
    utf8Dec := toyUtf8Dec }

theorem char_toNat_lt (c : Char) : c.toNat < 1114112 := by
  rcases c.valid with h | h
  · exact Nat.lt_trans h (by decide)
  · exact h.2

theorem decChars_encChars (l : List Char) : decChars (encChars l) = l := by
  induction l with
  | nil => rfl
  | cons c cs ih =>
    have hval : c.toNat % 256 + 256 * (c.toNat / 256 % 256)
        + 65536 * (c.toNat / 65536) = c.toNat := by omega
    simp only [encChars, encChar, List.append_eq, List.cons_append, List.nil_append,
      decChars, ih, hval, Char.ofNat_toNat]

theorem toyUtf8_roundtrip (s : String) : toyUtf8Dec (toyUtf8Enc s) = s := by
  obtain ⟨d⟩ := s
  simp only [toyUtf8Dec, toyUtf8Enc, decChars_encChars]

theorem encChars_bytes (l : List Char) : Bytes (encChars l) := by
  induction l with
  | nil => intro b hb; simp [encChars] at hb
  | cons c cs ih =>
    intro b hb
    simp only [encChars, encChar, List.cons_append, List.nil_append, List.mem_cons] at hb
    have hc := char_toNat_lt c
    rcases hb with rfl | rfl | rfl | hb
    · omega
    · omega
    · omega
    · exact ih b hb

theorem toyUtf8Enc_bytes (s : String) : Bytes (toyUtf8Enc s) := encChars_bytes s.data

theorem replicate_bytes (n x : Nat) (h : x < 256) : Bytes (List.replicate n x) := by
  intro b hb
  rcases List.eq_of_mem_replicate hb with rfl
  exact h

/-- The shared contract holds for the first concrete instantiation. -/
theorem toyPrimsA_good : GoodPrims toyPrimsA := by
  refine ⟨?_, ?_, ?_, ?_, ?_, ?_, ?_, ?_⟩
  · intro k i x; rfl
  · intro k i x; rfl
  · intro k i x h; exact h
  · intro k i c _ _ _; exact replicate_bytes 16 0 (by decide)
  · intro pw s n a b c; exact replicate_bytes n (pw.length % 256) (Nat.mod_lt _ (by decide))
  · intro pw s n a b c; exact List.length_replicate n _
  · exact toyUtf8Enc_bytes
  · exact toyUtf8_roundtrip

/-- The shared contract holds for the key-tag instantiation. -/
theorem toyPrimsB_good : GoodPrims toyPrimsB := by
  refine ⟨?_, ?_, ?_, ?_, ?_, ?_, ?_, ?_⟩
  · intro k i x; rfl
  · intro k i x; rfl
  · intro k i x h; exact h
  · intro k i c hk _ _; exact hk
  · intro pw s n a b c; exact replicate_bytes n (pw.length % 256) (Nat.mod_lt _ (by decide))
  · intro pw s n a b c; exact List.length_replicate n _
  · exact toyUtf8Enc_bytes
  · exact toyUtf8_roundtrip

/-- The shared contract holds for the append-tag instantiation. -/
theorem toyPrimsC_good : GoodPrims toyPrimsC := by
  refine ⟨?_, ?_, ?_, ?_, ?_, ?_, ?_, ?_⟩
  · intro k i x; rfl
  · intro k i x; rfl
  · intro k i x h; exact h
  · intro k i c _ hi hc
    intro b hb
    rcases List.mem_append.mp hb with h | h
    · exact hi b h
    · exact hc b h
  · intro pw s n a b c; exact replicate_bytes n (pw.length % 256) (Nat.mod_lt _ (by decide))
  · intro pw s n a b c; exact List.length_replicate n _
  · exact toyUtf8Enc_bytes
  · exact toyUtf8_roundtrip

theorem hexDigitVal_hexDigit : ∀ n : Nat, n < 16 → hexDigitVal (hexDigit n) = some n := by
  decide

theorem bufferFromHexAux_toHexDigits (l : List Nat) (h : Bytes l) :
    bufferFromHexAux (toHexDigits l) = l := by
  induction l with
  | nil => rfl
  | cons b t ih =>
    have hb : b < 256 := h b (List.mem_cons_self b t)
    have hhi : b / 16 < 16 := by omega
    have hlo : b % 16 < 16 := by omega
    have ht : Bytes t := fun x hx => h x (List.mem_cons_of_mem b hx)
    simp only [toHexDigits, bufferFromHexAux, hexDigitVal_hexDigit _ hhi,
      hexDigitVal_hexDigit _ hlo, ih ht]
    congr 1
    omega

theorem bufferFromHex_toHex (l : List Nat) (h : Bytes l) :
    bufferFromHex (toHex l) = l :=
  bufferFromHexAux_toHexDigits l h

theorem toHexDigits_length (l : List Nat) : (toHexDigits l).length = 2 * l.length := by
  induction l with
  | nil => rfl
  | cons b t ih => simp [toHexDigits, ih]; omega

theorem toHex_length (l : List Nat) : (toHex l).length = 2 * l.length :=
  toHexDigits_length l

theorem isLowerHexChar_hexDigit : ∀ n : Nat, n < 16 → isLowerHexChar (hexDigit n) := by
  decide

theorem toHex_lowerHex (l : List Nat) (h : Bytes l) : LowerHexStr (toHex l) := by
  induction l with
  | nil => intro c hc; simp [toHex, toHexDigits, String.mk] at hc
  | cons b t ih =>
    intro c hc
    have hb : b < 256 := h b (List.mem_cons_self b t)
    have ht : Bytes t := fun x hx => h x (List.mem_cons_of_mem b hx)
    simp only [toHex, toHexDigits, String.mk, List.mem_cons] at hc
    rcases hc with rfl | rfl | hc
    · exact isLowerHexChar_hexDigit _ (by omega)
    · exact isLowerHexChar_hexDigit _ (by omega)
    · exact ih ht c hc

theorem toHex_injOn (l1 l2 : List Nat) (h1 : Bytes l1) (h2 : Bytes l2)
    (h : toHex l1 = toHex l2) : l1 = l2 := by
  have := congrArg bufferFromHex h
  rwa [bufferFromHex_toHex l1 h1, bufferFromHex_toHex l2 h2] at this

/-- Core round-trip fact: decrypting (the parsed form of) a freshly
produced envelope with the encryption password recovers the plaintext. -/
theorem decrypt_toRaw_encrypt (C : CryptoPrims) (hC : GoodPrims C)
    (S P : String) (salt iv : List Nat) (hs : Bytes salt) (hi : Bytes iv) :
    decryptEvmMnemonic C (toRaw (encryptEvmMnemonic C salt iv S P)) P = .ok S := by
  have hk := hC.scrypt_bytes P salt 32 16384 8 1
  have hctB := hC.ctr_bytes (C.scryptFn P salt 32 16384 8 1) iv (C.utf8Enc S)
    (hC.utf8_enc_bytes S)
  have htagB := hC.tag_bytes _ _ _ hk hi hctB
  simp [decryptEvmMnemonic, toRaw, encryptEvmMnemonic,
    bufferFromHex_toHex salt hs, bufferFromHex_toHex iv hi,
    bufferFromHex_toHex _ hctB, bufferFromHex_toHex _ htagB,
    hC.ctr_invol, hC.utf8_roundtrip]

/-- Claim C1: for every secret string S and every password string P, and
every choice of the random salt and IV drawn during encryption,
decrypting the envelope produced by `encryptEvmMnemonic` with the same
password recovers the secret exactly. -/
theorem C1_encrypt_decrypt_roundtrip (C : CryptoPrims) (hC : GoodPrims C)
    (S P : String) (salt iv : List Nat) (hs : Bytes salt) (hi : Bytes iv) :
    decryptEvmMnemonic C (toRaw (encryptEvmMnemonic C salt iv S P)) P = .ok S :=
  decrypt_toRaw_encrypt C hC S P salt iv hs hi

/-- Concrete instance of the C1 round-trip. -/
theorem C1_encrypt_decrypt_roundtrip_witness :
    decryptEvmMnemonic toyPrimsA
      (toRaw (encryptEvmMnemonic toyPrimsA (List.replicate 32 0) (List.replicate 16 0)
        "test mnemonic phrase" "pw123")) "pw123" = .ok "test mnemonic phrase" :=
  C1_encrypt_decrypt_roundtrip toyPrimsA toyPrimsA_good "test mnemonic phrase" "pw123"
    (List.replicate 32 0) (List.replicate 16 0) (by decide) (by decide)

/-- Claim C2: decrypting an envelope with a password whose derived key
differs from the encryption key fails with the GCM authentication
failure (under the idealised assumption that distinct keys yield
distinct tags), and never returns a plaintext; moreover wrong-password
detection happens only through tag verification — the password enters
decryption only through the derived key, so passwords deriving the same
key are indistinguishable (no separate password check exists). -/
theorem C2_wrong_password_auth_failure (C : CryptoPrims) (hC : GoodPrims C)
    (S P P2 : String) (salt iv : List Nat) (hs : Bytes salt) (hi : Bytes iv)
    (hkeys : C.scryptFn P2 salt 32 16384 8 1 ≠ C.scryptFn P salt 32 16384 8 1)
    (htagInj : ∀ k1 k2 i c, C.tagFn k1 i c = C.tagFn k2 i c → k1 = k2) :
    decryptEvmMnemonic C (toRaw (encryptEvmMnemonic C salt iv S P)) P2 =
      .error .authFailure
    ∧ ∀ (env : EnvelopeJson) (P3 P4 : String),
        (∀ s a b c, C.scryptFn P3 s 32 a b c = C.scryptFn P4 s 32 a b c) →
        decryptEvmMnemonic C env P3 = decryptEvmMnemonic C env P4 := by
  constructor
  · have hk := hC.scrypt_bytes P salt 32 16384 8 1
    have hctB := hC.ctr_bytes (C.scryptFn P salt 32 16384 8 1) iv (C.utf8Enc S)
      (hC.utf8_enc_bytes S)
    have htagB := hC.tag_bytes _ _ _ hk hi hctB
    have hne : C.tagFn (C.scryptFn P2 salt 32 16384 8 1) iv
        (C.ctrFn (C.scryptFn P salt 32 16384 8 1) iv (C.utf8Enc S)) ≠
        C.tagFn (C.scryptFn P salt 32 16384 8 1) iv
        (C.ctrFn (C.scryptFn P salt 32 16384 8 1) iv (C.utf8Enc S)) :=
      fun h => hkeys (htagInj _ _ _ _ h)
    simp [decryptEvmMnemonic, toRaw, encryptEvmMnemonic,
      bufferFromHex_toHex salt hs, bufferFromHex_toHex iv hi,
      bufferFromHex_toHex _ hctB, bufferFromHex_toHex _ htagB, hne]
  · intro env P3 P4 hsame
    obtain ⟨v, alg, kdf, kdfps, ivf, tagf, ctf⟩ := env
    by_cases hguard : (alg ≠ some "aes-256-gcm" ∨ kdf ≠ some "scrypt")
    · simp [decryptEvmMnemonic, hguard]
    · cases kdfps with
      | none => simp [decryptEvmMnemonic, hguard]
      | some kp =>
        obtain ⟨a, b, c2, saltf⟩ := kp
        cases saltf <;> cases ivf <;> cases tagf <;> cases ctf <;>
          simp [decryptEvmMnemonic, hguard, hsame]

/-- Concrete instance of the C2 wrong-password failure. -/
theorem C2_wrong_password_auth_failure_witness :
    decryptEvmMnemonic toyPrimsB
      (toRaw (encryptEvmMnemonic toyPrimsB (List.replicate 32 0) (List.replicate 16 0)
        "test mnemonic phrase" "pw123")) "wrong-password" = .error .authFailure
    ∧ ∀ (env : EnvelopeJson) (P3 P4 : String),
        (∀ s a b c, toyPrimsB.scryptFn P3 s 32 a b c = toyPrimsB.scryptFn P4 s 32 a b c) →
        decryptEvmMnemonic toyPrimsB env P3 = decryptEvmMnemonic toyPrimsB env P4 :=
  C2_wrong_password_auth_failure toyPrimsB toyPrimsB_good "test mnemonic phrase"
    "pw123" "wrong-password" (List.replicate 32 0) (List.replicate 16 0)
    (by decide) (by decide) (by decide) (fun k1 k2 i c h => h)

/-- Claim C9: `encryptEvmMnemonic` performs no validation of its secret:
the empty secret encrypts to an envelope whose `ct` field is the empty
hex string, and decrypting that envelope with the same password returns
the empty string. -/
theorem C9_empty_secret_roundtrip (C : CryptoPrims) (hC : GoodPrims C)
    (P : String) (salt iv : List Nat) (hs : Bytes salt) (hi : Bytes iv)
    (hnil : C.utf8Enc "" = []) :
    (encryptEvmMnemonic C salt iv "" P).ct = ""
    ∧ decryptEvmMnemonic C (toRaw (encryptEvmMnemonic C salt iv "" P)) P = .ok "" := by
  refine ⟨?_, decrypt_toRaw_encrypt C hC "" P salt iv hs hi⟩
  have hlen : (C.ctrFn (C.scryptFn P salt 32 16384 8 1) iv (C.utf8Enc "")).length = 0 := by
    rw [hnil]
    simpa using hC.ctr_len (C.scryptFn P salt 32 16384 8 1) iv []
  have hemp : C.ctrFn (C.scryptFn P salt 32 16384 8 1) iv (C.utf8Enc "") = [] :=
    List.length_eq_zero.mp hlen
  simp [encryptEvmMnemonic, hemp, toHex, toHexDigits]

/-- Concrete instance of the C9 empty-secret behaviour. -/
theorem C9_empty_secret_roundtrip_witness :
    (encryptEvmMnemonic toyPrimsA (List.replicate 32 0) (List.replicate 16 0) "" "pw123").ct = ""
    ∧ decryptEvmMnemonic toyPrimsA
        (toRaw (encryptEvmMnemonic toyPrimsA (List.replicate 32 0) (List.replicate 16 0)
          "" "pw123")) "pw123" = .ok "" :=
  C9_empty_secret_roundtrip toyPrimsA toyPrimsA_good "pw123"
    (List.replicate 32 0) (List.replicate 16 0) (by decide) (by decide) rfl

/-- Claim C10: `generateEvmSeed` raises the error
"entropyBytes must be 16, 20, 24, 28, or 32" exactly when the requested
entropy size is below 16, above 32, or not a multiple of 4; for exactly
the sizes 16, 20, 24, 28 and 32 it draws that many random bytes and
returns the mnemonic built from them. -/
theorem C10_generateEvmSeed_validation (rb : Nat → List Nat)
    (etm : List Nat → String) (n : Nat) :
    (generateEvmSeed rb etm n = .error "entropyBytes must be 16, 20, 24, 28, or 32"
      ↔ (n < 16 ∨ 32 < n ∨ n % 4 ≠ 0))
    ∧ (generateEvmSeed rb etm n = .ok (etm (rb n))
      ↔ (n = 16 ∨ n = 20 ∨ n = 24 ∨ n = 28 ∨ n = 32)) := by
  by_cases h : (n < 16 ∨ 32 < n ∨ n % 4 ≠ 0)
  · constructor
    · simp only [generateEvmSeed, if_pos h]
      simpa using h
    · simp only [generateEvmSeed, if_pos h]
      constructor
      · intro habs
        exact absurd habs (by simp)
      · intro hmem
        exfalso
        omega
  · constructor
    · simp only [generateEvmSeed, if_neg h]
      constructor
      · intro habs
        exact absurd habs (by simp)
      · intro hmem
        exact absurd hmem h
    · simp only [generateEvmSeed, if_neg h]
      constructor
      · intro _
        omega
      · intro _
        trivial

/-- Claim C5: the envelope assembled by `encryptEvmMnemonic` has `v` = 1,
`alg` = "aes-256-gcm", `kdf` = "scrypt", `kdfparams` with N = 16384,
r = 8, p = 1 and a 64-lowercase-hex-character salt (32 random bytes), a
32-character lowercase-hex `iv` (16 random bytes), a 32-character
lowercase-hex `tag` (GCM's 16-byte tag, carried separately from `ct`),
and a lowercase-hex `ct` of length twice the UTF-8 byte length of the
secret. -/
theorem C5_envelope_shape (C : CryptoPrims) (hC : GoodPrims C)
    (S P : String) (salt iv : List Nat) (hs : Bytes salt) (hi : Bytes iv)
    (hslen : salt.length = 32) (hivlen : iv.length = 16)
    (htagLen : ∀ k i c, (C.tagFn k i c).length = 16) :
    let e := encryptEvmMnemonic C salt iv S P
    e.v = 1 ∧ e.alg = "aes-256-gcm" ∧ e.kdf = "scrypt"
    ∧ e.kdfparams.N = 16384 ∧ e.kdfparams.r = 8 ∧ e.kdfparams.p = 1
    ∧ e.kdfparams.salt.length = 64 ∧ LowerHexStr e.kdfparams.salt
    ∧ e.iv.length = 32 ∧ LowerHexStr e.iv
    ∧ e.tag.length = 32 ∧ LowerHexStr e.tag
    ∧ e.ct.length = 2 * (C.utf8Enc S).length ∧ LowerHexStr e.ct := by
  intro e
  refine ⟨rfl, rfl, rfl, rfl, rfl, rfl, ?_, ?_, ?_, ?_, ?_, ?_, ?_, ?_⟩
  · show (toHex salt).length = 64
    rw [toHex_length, hslen]
  · show LowerHexStr (toHex salt)
    exact toHex_lowerHex salt hs
  · show (toHex iv).length = 32
    rw [toHex_length, hivlen]
  · show LowerHexStr (toHex iv)
    exact toHex_lowerHex iv hi
  · show (toHex (C.tagFn (C.scryptFn P salt 32 16384 8 1) iv
      (C.ctrFn (C.scryptFn P salt 32 16384 8 1) iv (C.utf8Enc S)))).length = 32
    rw [toHex_length, htagLen]
  · show LowerHexStr (toHex (C.tagFn (C.scryptFn P salt 32 16384 8 1) iv
      (C.ctrFn (C.scryptFn P salt 32 16384 8 1) iv (C.utf8Enc S))))
    exact toHex_lowerHex _ (hC.tag_bytes _ _ _ (hC.scrypt_bytes P salt 32 16384 8 1) hi
      (hC.ctr_bytes _ _ _ (hC.utf8_enc_bytes S)))
  · show (toHex (C.ctrFn (C.scryptFn P salt 32 16384 8 1) iv (C.utf8Enc S))).length
      = 2 * (C.utf8Enc S).length
    rw [toHex_length, hC.ctr_len]
  · show LowerHexStr (toHex (C.ctrFn (C.scryptFn P salt 32 16384 8 1) iv (C.utf8Enc S)))
    exact toHex_lowerHex _ (hC.ctr_bytes _ _ _ (hC.utf8_enc_bytes S))

/-- Concrete instance of the C5 envelope shape. -/
theorem C5_envelope_shape_witness :
    let e := encryptEvmMnemonic toyPrimsA (List.replicate 32 0) (List.replicate 16 0)
      "test mnemonic phrase" "pw123"
    e.v = 1 ∧ e.alg = "aes-256-gcm" ∧ e.kdf = "scrypt"
    ∧ e.kdfparams.N = 16384 ∧ e.kdfparams.r = 8 ∧ e.kdfparams.p = 1
    ∧ e.kdfparams.salt.length = 64 ∧ LowerHexStr e.kdfparams.salt
    ∧ e.iv.length = 32 ∧ LowerHexStr e.iv
    ∧ e.tag.length = 32 ∧ LowerHexStr e.tag
    ∧ e.ct.length = 2 * (toyPrimsA.utf8Enc "test mnemonic phrase").length
    ∧ LowerHexStr e.ct :=
  C5_envelope_shape toyPrimsA toyPrimsA_good "test mnemonic phrase" "pw123"
    (List.replicate 32 0) (List.replicate 16 0) (by decide) (by decide)
    (by decide) (by decide) (fun _ _ _ => rfl)

/-- Claim C6: `decryptEvmMnemonic` derives the key with the scrypt cost
parameters recorded in the envelope's `kdfparams`, not the hardcoded
encryption-time defaults: an envelope with supported `alg`/`kdf`
identifiers whose tag and ciphertext were produced under the key derived
with arbitrary recorded parameters N, r, p decrypts correctly. -/
theorem C6_decrypt_uses_recorded_params (C : CryptoPrims) (hC : GoodPrims C)
    (S P : String) (salt iv : List Nat) (hs : Bytes salt) (hi : Bytes iv)
    (Np rp pp : Nat) :
    decryptEvmMnemonic C
      { v := some 1
        alg := some "aes-256-gcm"
        kdf := some "scrypt"
        kdfparams := some
          { N := some Np, r := some rp, p := some pp, salt := some (toHex salt) }
        iv := some (toHex iv)
        tag := some (toHex (C.tagFn (C.scryptFn P salt 32 Np rp pp) iv
          (C.ctrFn (C.scryptFn P salt 32 Np rp pp) iv (C.utf8Enc S))))
        ct := some (toHex (C.ctrFn (C.scryptFn P salt 32 Np rp pp) iv (C.utf8Enc S))) }
      P = .ok S := by
  have hk := hC.scrypt_bytes P salt 32 Np rp pp
  have hctB := hC.ctr_bytes (C.scryptFn P salt 32 Np rp pp) iv (C.utf8Enc S)
    (hC.utf8_enc_bytes S)
  have htagB := hC.tag_bytes _ _ _ hk hi hctB
  simp [decryptEvmMnemonic, bufferFromHex_toHex salt hs, bufferFromHex_toHex iv hi,
    bufferFromHex_toHex _ hctB, bufferFromHex_toHex _ htagB,
    hC.ctr_invol, hC.utf8_roundtrip]

/-- Concrete instance of C6 with the cost parameter N = 32768 recorded in
the envelope. -/
theorem C6_decrypt_uses_recorded_params_witness :
    decryptEvmMnemonic toyPrimsA
      { v := some 1
        alg := some "aes-256-gcm"
        kdf := some "scrypt"
        kdfparams := some
          { N := some 32768, r := some 8, p := some 1
            salt := some (toHex (List.replicate 32 0)) }
        iv := some (toHex (List.replicate 16 0))
        tag := some (toHex (toyPrimsA.tagFn
          (toyPrimsA.scryptFn "pw123" (List.replicate 32 0) 32 32768 8 1)
          (List.replicate 16 0)
          (toyPrimsA.ctrFn (toyPrimsA.scryptFn "pw123" (List.replicate 32 0) 32 32768 8 1)
            (List.replicate 16 0) (toyPrimsA.utf8Enc "test mnemonic phrase"))))
        ct := some (toHex (toyPrimsA.ctrFn
          (toyPrimsA.scryptFn "pw123" (List.replicate 32 0) 32 32768 8 1)
          (List.replicate 16 0) (toyPrimsA.utf8Enc "test mnemonic phrase"))) }
      "pw123" = .ok "test mnemonic phrase" :=
  C6_decrypt_uses_recorded_params toyPrimsA toyPrimsA_good "test mnemonic phrase"
    "pw123" (List.replicate 32 0) (List.replicate 16 0) (by decide) (by decide)
    32768 8 1

/-- Two envelopes that agree on `v`, `alg`, `kdf` and the numeric KDF
parameters but carry different salts of equal length serialize to
different JSON strings. -/
theorem serializeEnvelope_ne_of_salt_ne (e1 e2 : Envelope)
    (hv : e1.v = e2.v) (halg : e1.alg = e2.alg) (hkdf : e1.kdf = e2.kdf)
    (hN : e1.kdfparams.N = e2.kdfparams.N) (hr : e1.kdfparams.r = e2.kdfparams.r)
    (hp : e1.kdfparams.p = e2.kdfparams.p)
    (hlen : e1.kdfparams.salt.length = e2.kdfparams.salt.length)
    (hne : e1.kdfparams.salt ≠ e2.kdfparams.salt) :
    serializeEnvelope e1 ≠ serializeEnvelope e2 := by
  intro h
  apply hne
  have hd := congrArg String.data h
  simp only [serializeEnvelope, hv, halg, hkdf, hN, hr, hp,
    String.data_append, List.append_assoc] at hd
  iterate 13 replace hd := List.append_cancel_left hd
  exact String.ext (List.append_inj hd hlen).1

/-- Claim C4: for a fixed secret and password, two encryption calls whose
freshly drawn salts (32 bytes) and IVs (16 bytes) differ produce two
different envelope strings, and each of the two envelopes decrypts back
to the secret under the same password. -/
theorem C4_fresh_randomness_distinct_envelopes (C : CryptoPrims) (hC : GoodPrims C)
    (S P : String) (salt1 iv1 salt2 iv2 : List Nat)
    (hbs1 : Bytes salt1) (hbi1 : Bytes iv1) (hbs2 : Bytes salt2) (hbi2 : Bytes iv2)
    (hslen1 : salt1.length = 32) (hslen2 : salt2.length = 32)
    (hivlen1 : iv1.length = 16) (hivlen2 : iv2.length = 16)
    (hsne : salt1 ≠ salt2) (hivne : iv1 ≠ iv2) :
    serializeEnvelope (encryptEvmMnemonic C salt1 iv1 S P)
      ≠ serializeEnvelope (encryptEvmMnemonic C salt2 iv2 S P)
    ∧ decryptEvmMnemonic C (toRaw (encryptEvmMnemonic C salt1 iv1 S P)) P = .ok S
    ∧ decryptEvmMnemonic C (toRaw (encryptEvmMnemonic C salt2 iv2 S P)) P = .ok S := by
  refine ⟨?_, decrypt_toRaw_encrypt C hC S P salt1 iv1 hbs1 hbi1,
    decrypt_toRaw_encrypt C hC S P salt2 iv2 hbs2 hbi2⟩
  apply serializeEnvelope_ne_of_salt_ne
  · rfl
  · rfl
  · rfl
  · rfl
  · rfl
  · rfl
  · show (toHex salt1).length = (toHex salt2).length
    rw [toHex_length, toHex_length, hslen1, hslen2]
  · show toHex salt1 ≠ toHex salt2
    intro h
    exact hsne (toHex_injOn salt1 salt2 hbs1 hbs2 h)

/-- Concrete instance of the C4 distinct-envelope property. -/
theorem C4_fresh_randomness_distinct_envelopes_witness :
    serializeEnvelope (encryptEvmMnemonic toyPrimsA (List.replicate 32 0)
        (List.replicate 16 0) "test mnemonic phrase" "pw123")
      ≠ serializeEnvelope (encryptEvmMnemonic toyPrimsA (List.replicate 32 1)
        (List.replicate 16 1) "test mnemonic phrase" "pw123")
    ∧ decryptEvmMnemonic toyPrimsA
        (toRaw (encryptEvmMnemonic toyPrimsA (List.replicate 32 0) (List.replicate 16 0)
          "test mnemonic phrase" "pw123")) "pw123" = .ok "test mnemonic phrase"
    ∧ decryptEvmMnemonic toyPrimsA
        (toRaw (encryptEvmMnemonic toyPrimsA (List.replicate 32 1) (List.replicate 16 1)
          "test mnemonic phrase" "pw123")) "pw123" = .ok "test mnemonic phrase" :=
  C4_fresh_randomness_distinct_envelopes toyPrimsA toyPrimsA_good
    "test mnemonic phrase" "pw123"
    (List.replicate 32 0) (List.replicate 16 0) (List.replicate 32 1) (List.replicate 16 1)
    (by decide) (by decide) (by decide) (by decide)
    (by decide) (by decide) (by decide) (by decide) (by decide) (by decide)

/-- Overwriting a valid position of a list with a different value yields a
different list. -/
theorem set_ne_of_ne_get (l : List Nat) (j v2 : Nat) (hj : j < l.length)
    (hne : v2 ≠ l.get ⟨j, hj⟩) : l.set j v2 ≠ l := by
  intro h
  apply hne
  have h1 : (l.set j v2)[j]? = some v2 := by
    simp [List.getElem?_set, hj]
  have h2 : l[j]? = some (l.get ⟨j, hj⟩) := by
    simp [List.getElem?_eq_getElem, hj]
  rw [h] at h1
  rw [h1] at h2
  exact (Option.some.injEq _ _).mp h2

/-- Bytes are preserved by overwriting one position with a byte. -/
theorem bytes_set (l : List Nat) (j v2 : Nat) (hl : Bytes l) (hv : v2 < 256) :
    Bytes (l.set j v2) := by
  intro b hb
  rcases List.mem_or_eq_of_mem_set hb with h | rfl
  · exact hl b h
  · exact hv

/-- Claim C7: flipping any single byte of the decoded `ct`, `tag` or `iv`
field of a valid envelope to a different value makes decryption with the
correct password fail with the authentication error (under the idealised
assumption that the GCM tag is injective in the ciphertext and in the
16-byte IV for a fixed key), never returning a corrupted plaintext. -/
theorem C7_tamper_detection (C : CryptoPrims) (hC : GoodPrims C)
    (S P : String) (salt iv : List Nat) (hs : Bytes salt) (hi : Bytes iv)
    (hivlen : iv.length = 16)
    (htagInjData : ∀ k i c1 c2, C.tagFn k i c1 = C.tagFn k i c2 → c1 = c2)
    (htagInjIv : ∀ k i1 i2 c, i1.length = 16 → i2.length = 16 →
      C.tagFn k i1 c = C.tagFn k i2 c → i1 = i2) :
    (∀ j v2 (hj : j < (C.ctrFn (C.scryptFn P salt 32 16384 8 1) iv (C.utf8Enc S)).length),
      v2 < 256 →
      v2 ≠ (C.ctrFn (C.scryptFn P salt 32 16384 8 1) iv (C.utf8Enc S)).get ⟨j, hj⟩ →
      decryptEvmMnemonic C
        { toRaw (encryptEvmMnemonic C salt iv S P) with
          ct := some (toHex
            ((C.ctrFn (C.scryptFn P salt 32 16384 8 1) iv (C.utf8Enc S)).set j v2)) } P
        = .error .authFailure)
    ∧ (∀ j v2 (hj : j < (C.tagFn (C.scryptFn P salt 32 16384 8 1) iv
          (C.ctrFn (C.scryptFn P salt 32 16384 8 1) iv (C.utf8Enc S))).length),
      v2 < 256 →
      v2 ≠ (C.tagFn (C.scryptFn P salt 32 16384 8 1) iv
        (C.ctrFn (C.scryptFn P salt 32 16384 8 1) iv (C.utf8Enc S))).get ⟨j, hj⟩ →
      decryptEvmMnemonic C
        { toRaw (encryptEvmMnemonic C salt iv S P) with
          tag := some (toHex
            ((C.tagFn (C.scryptFn P salt 32 16384 8 1) iv
              (C.ctrFn (C.scryptFn P salt 32 16384 8 1) iv (C.utf8Enc S))).set j v2)) } P
        = .error .authFailure)
    ∧ (∀ j v2 (hj : j < iv.length),
      v2 < 256 →
      v2 ≠ iv.get ⟨j, hj⟩ →
      decryptEvmMnemonic C
        { toRaw (encryptEvmMnemonic C salt iv S P) with
          iv := some (toHex (iv.set j v2)) } P
        = .error .authFailure) := by
  have hk := hC.scrypt_bytes P salt 32 16384 8 1
  have hctB : Bytes (C.ctrFn (C.scryptFn P salt 32 16384 8 1) iv (C.utf8Enc S)) :=
    hC.ctr_bytes _ _ _ (hC.utf8_enc_bytes S)
  have htagB := hC.tag_bytes _ _ _ hk hi hctB
  refine ⟨?_, ?_, ?_⟩
  · intro j v2 hj hv2 hne
    have hsetB := bytes_set _ j v2 hctB hv2
    have hsetne := set_ne_of_ne_get _ j v2 hj hne
    have hcmp : C.tagFn (C.scryptFn P salt 32 16384 8 1) iv
        ((C.ctrFn (C.scryptFn P salt 32 16384 8 1) iv (C.utf8Enc S)).set j v2) ≠
        C.tagFn (C.scryptFn P salt 32 16384 8 1) iv
        (C.ctrFn (C.scryptFn P salt 32 16384 8 1) iv (C.utf8Enc S)) :=
      fun h => hsetne (htagInjData _ _ _ _ h)
    simp [decryptEvmMnemonic, toRaw, encryptEvmMnemonic,
      bufferFromHex_toHex salt hs, bufferFromHex_toHex iv hi,
      bufferFromHex_toHex _ hsetB, bufferFromHex_toHex _ htagB, hcmp]
  · intro j v2 hj hv2 hne
    have hsetB := bytes_set _ j v2 htagB hv2
    have hsetne := set_ne_of_ne_get _ j v2 hj hne
    have hcmp : C.tagFn (C.scryptFn P salt 32 16384 8 1) iv
        (C.ctrFn (C.scryptFn P salt 32 16384 8 1) iv (C.utf8Enc S)) ≠
        (C.tagFn (C.scryptFn P salt 32 16384 8 1) iv
          (C.ctrFn (C.scryptFn P salt 32 16384 8 1) iv (C.utf8Enc S))).set j v2 :=
      fun h => hsetne h.symm
    simp [decryptEvmMnemonic, toRaw, encryptEvmMnemonic,
      bufferFromHex_toHex salt hs, bufferFromHex_toHex iv hi,
      bufferFromHex_toHex _ hsetB, bufferFromHex_toHex _ hctB, hcmp]
  · intro j v2 hj hv2 hne
    have hsetB := bytes_set _ j v2 hi hv2
    have hsetne := set_ne_of_ne_get _ j v2 hj hne
    have hsetlen : (iv.set j v2).length = 16 := by
      rw [List.length_set, hivlen]
    have hcmp : C.tagFn (C.scryptFn P salt 32 16384 8 1) (iv.set j v2)
        (C.ctrFn (C.scryptFn P salt 32 16384 8 1) iv (C.utf8Enc S)) ≠
        C.tagFn (C.scryptFn P salt 32 16384 8 1) iv
        (C.ctrFn (C.scryptFn P salt 32 16384 8 1) iv (C.utf8Enc S)) :=
      fun h => hsetne (htagInjIv _ _ _ _ hsetlen hivlen h)
    simp [decryptEvmMnemonic, toRaw, encryptEvmMnemonic,
      bufferFromHex_toHex salt hs, bufferFromHex_toHex _ hsetB,
      bufferFromHex_toHex _ hctB, bufferFromHex_toHex _ htagB, hcmp]

/-- Concrete instance of the C7 tamper-detection property, flipping the
first byte of each of `ct`, `tag` and `iv`. -/
theorem C7_tamper_detection_witness :
    decryptEvmMnemonic toyPrimsC
      { toRaw (encryptEvmMnemonic toyPrimsC (List.replicate 32 0) (List.replicate 16 0)
          "test mnemonic phrase" "pw123") with
        ct := some (toHex
          ((toyPrimsC.ctrFn (toyPrimsC.scryptFn "pw123" (List.replicate 32 0) 32 16384 8 1)
            (List.replicate 16 0) (toyPrimsC.utf8Enc "test mnemonic phrase")).set 0 255)) }
      "pw123" = .error .authFailure
    ∧ decryptEvmMnemonic toyPrimsC
        { toRaw (encryptEvmMnemonic toyPrimsC (List.replicate 32 0) (List.replicate 16 0)
            "test mnemonic phrase" "pw123") with
          tag := some (toHex
            ((toyPrimsC.tagFn (toyPrimsC.scryptFn "pw123" (List.replicate 32 0) 32 16384 8 1)
              (List.replicate 16 0)
              (toyPrimsC.ctrFn (toyPrimsC.scryptFn "pw123" (List.replicate 32 0) 32 16384 8 1)
                (List.replicate 16 0) (toyPrimsC.utf8Enc "test mnemonic phrase"))).set 0 255)) }
        "pw123" = .error .authFailure
    ∧ decryptEvmMnemonic toyPrimsC
        { toRaw (encryptEvmMnemonic toyPrimsC (List.replicate 32 0) (List.replicate 16 0)
            "test mnemonic phrase" "pw123") with
          iv := some (toHex ((List.replicate 16 0).set 0 255)) }
        "pw123" = .error .authFailure := by
  have h := C7_tamper_detection toyPrimsC toyPrimsC_good "test mnemonic phrase" "pw123"
    (List.replicate 32 0) (List.replicate 16 0) (by decide) (by decide) (by decide)
    (fun k i c1 c2 hcc => List.append_cancel_left hcc)
    (fun k i1 i2 c h1 h2 hcc =>
      (List.append_inj hcc (h1.trans h2.symm)).1)
  exact ⟨h.1 0 255 (by decide) (by decide) (by decide),
    h.2.1 0 255 (by decide) (by decide) (by decide),
    h.2.2 0 255 (by decide) (by decide) (by decide)⟩

/-- Counterexample to claim C3 as stated: removing the required field `v`
from a valid envelope does not make `decryptEvmMnemonic` fail at all —
`v` is never inspected and decryption succeeds. -/
theorem C3_missing_v_counterexample :
    decryptEvmMnemonic toyPrimsA
      { toRaw (encryptEvmMnemonic toyPrimsA (List.replicate 32 0) (List.replicate 16 0)
          "abc" "pw") with v := none } "pw" = .ok "abc" := by
  decide

/-- Claim C3 (amended): removing `alg` or `kdf`, or setting either to any
unrecognized value, causes the unsupported-envelope error; removing
`kdfparams`, `kdfparams.salt`, `iv`, `tag` or `ct` causes a failure (a
type error from reading or hex-decoding an absent value), not the
unsupported-envelope error; removing `v` causes no failure — `v` is
never inspected and decryption proceeds normally. -/
theorem C3_amended_field_validation (C : CryptoPrims) (hC : GoodPrims C)
    (S P : String) (salt iv : List Nat) (hs : Bytes salt) (hi : Bytes iv) :
    (∀ a : Option String, a ≠ some "aes-256-gcm" →
      decryptEvmMnemonic C
        { toRaw (encryptEvmMnemonic C salt iv S P) with alg := a } P
        = .error .unsupportedEnvelope)
    ∧ (∀ k : Option String, k ≠ some "scrypt" →
      decryptEvmMnemonic C
        { toRaw (encryptEvmMnemonic C salt iv S P) with kdf := k } P
        = .error .unsupportedEnvelope)
    ∧ decryptEvmMnemonic C
        { toRaw (encryptEvmMnemonic C salt iv S P) with kdfparams := none } P
        = .error .typeError
    ∧ decryptEvmMnemonic C
        { toRaw (encryptEvmMnemonic C salt iv S P) with
          kdfparams := some { N := some 16384, r := some 8, p := some 1, salt := none } } P
        = .error .typeError
    ∧ decryptEvmMnemonic C
        { toRaw (encryptEvmMnemonic C salt iv S P) with iv := none } P
        = .error .typeError
    ∧ decryptEvmMnemonic C
        { toRaw (encryptEvmMnemonic C salt iv S P) with tag := none } P
        = .error .typeError
    ∧ decryptEvmMnemonic C
        { toRaw (encryptEvmMnemonic C salt iv S P) with ct := none } P
        = .error .typeError
    ∧ decryptEvmMnemonic C
        { toRaw (encryptEvmMnemonic C salt iv S P) with v := none } P
        = .ok S := by
  have hk := hC.scrypt_bytes P salt 32 16384 8 1
  have hctB := hC.ctr_bytes (C.scryptFn P salt 32 16384 8 1) iv (C.utf8Enc S)
    (hC.utf8_enc_bytes S)
  have htagB := hC.tag_bytes _ _ _ hk hi hctB
  refine ⟨?_, ?_, ?_, ?_, ?_, ?_, ?_, ?_⟩
  · intro a ha
    simp [decryptEvmMnemonic, toRaw, encryptEvmMnemonic, ha]
  · intro k hkne
    simp [decryptEvmMnemonic, toRaw, encryptEvmMnemonic, hkne]
  · simp [decryptEvmMnemonic, toRaw, encryptEvmMnemonic]
  · simp [decryptEvmMnemonic, toRaw, encryptEvmMnemonic]
  · simp [decryptEvmMnemonic, toRaw, encryptEvmMnemonic]
  · simp [decryptEvmMnemonic, toRaw, encryptEvmMnemonic]
  · simp [decryptEvmMnemonic, toRaw, encryptEvmMnemonic]
  · simp [decryptEvmMnemonic, toRaw, encryptEvmMnemonic,
      bufferFromHex_toHex salt hs, bufferFromHex_toHex iv hi,
      bufferFromHex_toHex _ hctB, bufferFromHex_toHex _ htagB,
      hC.ctr_invol, hC.utf8_roundtrip]

/-- Concrete instance of the amended C3 field-validation behaviour. -/
theorem C3_amended_field_validation_witness :
    (∀ a : Option String, a ≠ some "aes-256-gcm" →
      decryptEvmMnemonic toyPrimsA
        { toRaw (encryptEvmMnemonic toyPrimsA (List.replicate 32 0) (List.replicate 16 0)
            "abc" "pw") with alg := a } "pw"
        = .error .unsupportedEnvelope)
    ∧ (∀ k : Option String, k ≠ some "scrypt" →
      decryptEvmMnemonic toyPrimsA
        { toRaw (encryptEvmMnemonic toyPrimsA (List.replicate 32 0) (List.replicate 16 0)
            "abc" "pw") with kdf := k } "pw"
        = .error .unsupportedEnvelope)
    ∧ decryptEvmMnemonic toyPrimsA
        { toRaw (encryptEvmMnemonic toyPrimsA (List.replicate 32 0) (List.replicate 16 0)
            "abc" "pw") with kdfparams := none } "pw"
        = .error .typeError
    ∧ decryptEvmMnemonic toyPrimsA
        { toRaw (encryptEvmMnemonic toyPrimsA (List.replicate 32 0) (List.replicate 16 0)
            "abc" "pw") with
          kdfparams := some { N := some 16384, r := some 8, p := some 1, salt := none } } "pw"
        = .error .typeError
    ∧ decryptEvmMnemonic toyPrimsA
        { toRaw (encryptEvmMnemonic toyPrimsA (List.replicate 32 0) (List.replicate 16 0)
            "abc" "pw") with iv := none } "pw"
        = .error .typeError
    ∧ decryptEvmMnemonic toyPrimsA
        { toRaw (encryptEvmMnemonic toyPrimsA (List.replicate 32 0) (List.replicate 16 0)
            "abc" "pw") with tag := none } "pw"
        = .error .typeError
    ∧ decryptEvmMnemonic toyPrimsA
        { toRaw (encryptEvmMnemonic toyPrimsA (List.replicate 32 0) (List.replicate 16 0)
            "abc" "pw") with ct := none } "pw"
        = .error .typeError
    ∧ decryptEvmMnemonic toyPrimsA
        { toRaw (encryptEvmMnemonic toyPrimsA (List.replicate 32 0) (List.replicate 16 0)
            "abc" "pw") with v := none } "pw"
        = .ok "abc" :=
  C3_amended_field_validation toyPrimsA toyPrimsA_good "abc" "pw"
    (List.replicate 32 0) (List.replicate 16 0) (by decide) (by decide)

/-- Claim C8: `decryptEvmMnemonic` is all-or-nothing: on any parsed
envelope and password it either returns a plaintext or an error (it is a
total function with no other outcome, and being a pure function it
retains no state); and whenever it returns a plaintext, every required
field was present, the `alg`/`kdf` guard passed, the recomputed GCM tag
equals the envelope's tag (the plaintext is authenticated), and the
result is the full decryption of the entire ciphertext. -/
theorem C8_all_or_nothing (C : CryptoPrims) (env : EnvelopeJson) (P : String) :
    ((∃ s, decryptEvmMnemonic C env P = .ok s)
      ∨ (∃ e, decryptEvmMnemonic C env P = .error e))
    ∧ ∀ s, decryptEvmMnemonic C env P = .ok s →
      ∃ kp saltHex ivHex tagHex ctHex,
        env.alg = some "aes-256-gcm" ∧ env.kdf = some "scrypt"
        ∧ env.kdfparams = some kp ∧ kp.salt = some saltHex
        ∧ env.iv = some ivHex ∧ env.tag = some tagHex ∧ env.ct = some ctHex
        ∧ C.tagFn (C.scryptFn P (bufferFromHex saltHex) 32
            (kp.N.getD 16384) (kp.r.getD 8) (kp.p.getD 1))
            (bufferFromHex ivHex) (bufferFromHex ctHex) = bufferFromHex tagHex
        ∧ s = C.utf8Dec (C.ctrFn (C.scryptFn P (bufferFromHex saltHex) 32
            (kp.N.getD 16384) (kp.r.getD 8) (kp.p.getD 1))
            (bufferFromHex ivHex) (bufferFromHex ctHex)) := by
  constructor
  · cases hres : decryptEvmMnemonic C env P
    · exact Or.inr ⟨_, rfl⟩
    · exact Or.inl ⟨_, rfl⟩
  · intro s hok
    obtain ⟨v, alg, kdf, kdfps, ivf, tagf, ctf⟩ := env
    by_cases hguard : (alg ≠ some "aes-256-gcm" ∨ kdf ≠ some "scrypt")
    · simp [decryptEvmMnemonic, hguard] at hok
    · push_neg at hguard
      obtain ⟨halg, hkdf⟩ := hguard
      subst halg
      subst hkdf
      cases kdfps with
      | none => simp [decryptEvmMnemonic] at hok
      | some kp =>
        obtain ⟨a, b, c2, saltf⟩ := kp
        cases saltf with
        | none => simp [decryptEvmMnemonic] at hok
        | some saltHex =>
          cases ivf with
          | none => simp [decryptEvmMnemonic] at hok
          | some ivHex =>
            cases tagf with
            | none => simp [decryptEvmMnemonic] at hok
            | some tagHex =>
              cases ctf with
              | none => simp [decryptEvmMnemonic] at hok
              | some ctHex =>
                by_cases htag : C.tagFn (C.scryptFn P (bufferFromHex saltHex) 32
                    (a.getD 16384) (b.getD 8) (c2.getD 1))
                    (bufferFromHex ivHex) (bufferFromHex ctHex) = bufferFromHex tagHex
                · refine ⟨⟨a, b, c2, some saltHex⟩, saltHex, ivHex, tagHex, ctHex,
                    rfl, rfl, rfl, rfl, rfl, rfl, rfl, htag, ?_⟩
                  simp [decryptEvmMnemonic, htag] at hok
                  exact hok.symm
                · simp [decryptEvmMnemonic, htag] at hok

/-- Concrete instance of the C8 success inversion. -/
theorem C8_all_or_nothing_witness :
    ∃ kp saltHex ivHex tagHex ctHex,
      (toRaw (encryptEvmMnemonic toyPrimsA (List.replicate 32 0) (List.replicate 16 0)
        "abc" "pw")).alg = some "aes-256-gcm"
      ∧ (toRaw (encryptEvmMnemonic toyPrimsA (List.replicate 32 0) (List.replicate 16 0)
        "abc" "pw")).kdf = some "scrypt"
      ∧ (toRaw (encryptEvmMnemonic toyPrimsA (List.replicate 32 0) (List.replicate 16 0)
        "abc" "pw")).kdfparams = some kp ∧ kp.salt = some saltHex
      ∧ (toRaw (encryptEvmMnemonic toyPrimsA (List.replicate 32 0) (List.replicate 16 0)
        "abc" "pw")).iv = some ivHex
      ∧ (toRaw (encryptEvmMnemonic toyPrimsA (List.replicate 32 0) (List.replicate 16 0)
        "abc" "pw")).tag = some tagHex
      ∧ (toRaw (encryptEvmMnemonic toyPrimsA (List.replicate 32 0) (List.replicate 16 0)
        "abc" "pw")).ct = some ctHex
      ∧ toyPrimsA.tagFn (toyPrimsA.scryptFn "pw" (bufferFromHex saltHex) 32
          (kp.N.getD 16384) (kp.r.getD 8) (kp.p.getD 1))
          (bufferFromHex ivHex) (bufferFromHex ctHex) = bufferFromHex tagHex
      ∧ "abc" = toyPrimsA.utf8Dec (toyPrimsA.ctrFn
          (toyPrimsA.scryptFn "pw" (bufferFromHex saltHex) 32
            (kp.N.getD 16384) (kp.r.getD 8) (kp.p.getD 1))
          (bufferFromHex ivHex) (bufferFromHex ctHex)) :=
  (C8_all_or_nothing toyPrimsA
    (toRaw (encryptEvmMnemonic toyPrimsA (List.replicate 32 0) (List.replicate 16 0)
      "abc" "pw")) "pw").2 "abc" (by decide)

end Web3Tools
